import Mathlib

/-!
Shallow embedding of the request/resolution layer of the adocli command-line
client (an Azure DevOps CLI written in Go), together with proofs of the
specified properties of its transport, query builder, patch builder,
entity resolver and domain operations.

Strings are modelled with Lean strings (lists of characters); Go byte strings
at the relevant call sites are ASCII, so the character-level model is exact.
Network effects are modelled by passing stubbed responses in explicitly and
returning the list of calls an operation performs alongside its result.
-/

namespace Adocli

/-- The single-quote character (code point 39), used by the WIQL escaper. -/
def squote : Char := Char.ofNat 39

/-- The single-quote character as a one-character string. -/
def sq : String := squote.toString

/-- Model of Go strings.TrimSuffix: drops the suffix when present. -/
def trimSuffix (s suf : String) : String :=
  if suf.data.isSuffixOf s.data then String.mk (s.data.take (s.data.length - suf.data.length))
  else s

/-! ## Transport (internal/api client) -/

/-- The API client state: base URL, personal access token and API version.
The HTTP client handle itself is not part of the model. -/
structure Client where
  baseURL : String
  pat : String
  apiVersion : String

/-- Client.ProjectURL: constructs a project-scoped API URL from the org base. -/
def projectURL (c : Client) (project path : String) : String :=
  trimSuffix c.baseURL ("/_apis") ++ ("/") ++ project ++ ("/_apis/") ++ path

/-- A wire response: status code and raw body text. -/
structure Response where
  statusCode : Nat
  body : String

/-- The typed API error produced for non-success responses
(the Error struct of the api package). -/
structure ApiError where
  statusCode : Nat
  body : String
deriving DecidableEq

/-- The Error method of ApiError: renders
"Azure DevOps API error (HTTP status): body". -/
def errorMessage (e : ApiError) : String :=
  ("Azure DevOps API error (HTTP ") ++ toString e.statusCode ++ ("): ") ++ e.body

/-- decodeOrClose: a status of 400 or above becomes a typed error carrying
the status code and the raw body; otherwise the raw body is handed back
for the caller to decode. (The JSON decoding of the body into a typed
result and the closing of the stream are outside the model.) -/
def decodeOrClose (resp : Response) : Except ApiError String :=
  if resp.statusCode ≥ 400 then Except.error ⟨resp.statusCode, resp.body⟩
  else Except.ok resp.body

/-! ## Query-parameter handling of doRaw

doRaw parses the query of the caller-supplied URL, sets the api-version
parameter (url.Values.Set replaces every value stored under that key) and
re-encodes. The model works on the list of key-value pairs; the
alphabetical re-ordering done by Encode is not modelled since no property
depends on it. -/

/-- url.Values.Set on a key-value list: removes every pair with the key,
then stores the new value under it. -/
def setParam (params : List (String × String)) (key value : String) : List (String × String) :=
  params.filter (fun p => p.fst != key) ++ [(key, value)]

/-- The query parameters of the final request URL built by doRaw, given the
query parameters of the caller-supplied target URL. -/
def doRawParams (target : List (String × String)) (apiVersion : String) :
    List (String × String) :=
  setParam target ("api-version") apiVersion

/-- The query parameters of the target URL built by QueryByWiql,
which carries the result cap as a dollar-top parameter. -/
def wiqlTarget (top : Int) : List (String × String) :=
  [(("$top"), toString top)]

/-! ## Work items: records and patch documents -/

/-- A JSON field value as carried by a work item record: a string, a number,
a nested identity object exposing a display name, or null. Models the
dynamically typed field map of the wire format. -/
inductive FieldValue where
  | str : String → FieldValue
  | num : Int → FieldValue
  | ident : String → FieldValue
  | null : FieldValue
deriving DecidableEq

/-- A work item record. -/
structure WorkItem where
  id : Int
  rev : Int
  fields : List (String × FieldValue)
  url : String
deriving DecidableEq

/-- The response envelope when fetching several work items. -/
structure WorkItemList where
  count : Int
  value : List WorkItem
deriving DecidableEq

/-- A single JSON Patch operation (op, path, value). At every call site in
the client the value is a string. -/
structure PatchField where
  op : String
  path : String
  value : String
deriving DecidableEq

/-- A work-item API call as observed at the transport boundary. -/
inductive WICall where
  | get : String → WICall
  | post : String → List PatchField → WICall
  | patchReq : String → List PatchField → WICall
deriving DecidableEq

/-- The relative path used by GetWorkItems: ids joined with commas. -/
def getWorkItemsPath (ids : List Int) : String :=
  ("wit/workitems?ids=") ++ String.intercalate (",") (ids.map toString)

/-- GetWorkItems: with no ids it returns a nil slice and no error without
calling the transport; otherwise one GET against the batch path, whose
stubbed outcome is passed in. Returns the calls made and the result. -/
def getWorkItems (stub : Except String WorkItemList) (project : String) (ids : List Int) :
    List WICall × Except String (List WorkItem) :=
  if ids.length = 0 then ([], Except.ok [])
  else
    match stub with
    | Except.ok result => ([WICall.get (getWorkItemsPath ids)], Except.ok result.value)
    | Except.error e => ([WICall.get (getWorkItemsPath ids)], Except.error e)

/-- The patch document built by the workitem create command: the Title
operation always, then one add per non-empty optional input, in source
order (description, assigned-to, area path, iteration path). -/
def createFields (title desc assignedTo areaPath iterationPath : String) : List PatchField :=
  [⟨("add"), ("/fields/System.Title"), title⟩]
  ++ (if desc = "" then [] else [⟨("add"), ("/fields/System.Description"), desc⟩])
  ++ (if assignedTo = "" then [] else [⟨("add"), ("/fields/System.AssignedTo"), assignedTo⟩])
  ++ (if areaPath = "" then [] else [⟨("add"), ("/fields/System.AreaPath"), areaPath⟩])
  ++ (if iterationPath = "" then [] else [⟨("add"), ("/fields/System.IterationPath"), iterationPath⟩])

/-- The patch document built by the workitem update command: one replace per
non-empty optional input, in source order (title, state, assigned-to). -/
def updateFields (title state assignedTo : String) : List PatchField :=
  (if title = "" then [] else [⟨("replace"), ("/fields/System.Title"), title⟩])
  ++ (if state = "" then [] else [⟨("replace"), ("/fields/System.State"), state⟩])
  ++ (if assignedTo = "" then [] else [⟨("replace"), ("/fields/System.AssignedTo"), assignedTo⟩])

/-- The URL targeted by UpdateWorkItem (org base, not project-scoped). -/
def updateWorkItemURL (c : Client) (id : Int) : String :=
  c.baseURL ++ ("/wit/workitems/") ++ toString id

/-- runWorkitemUpdate from the point where the flag values are known: builds
the replace patch document, fails fast with a validation error when it is
empty, otherwise performs the single PATCH whose stubbed outcome is passed
in. Returns the transport calls made and the result. -/
def runWorkitemUpdate (c : Client) (stub : Except String WorkItem) (project : String)
    (id : Int) (title state assignedTo : String) :
    List WICall × Except String WorkItem :=
  let fields := updateFields title state assignedTo
  if fields.length = 0 then
    ([], Except.error ("no fields to update (use --title, --state, or --assigned-to)"))
  else
    match stub with
    | Except.ok wi => ([WICall.patchReq (updateWorkItemURL c id) fields], Except.ok wi)
    | Except.error e =>
        ([WICall.patchReq (updateWorkItemURL c id) fields],
         Except.error (("updating work item ") ++ toString id ++ (": ") ++ e))

/-! ## WIQL query builder -/

/-- escapeWIQL character by character: each single quote becomes two single
quotes, every other character is kept. Faithful to Go
strings.ReplaceAll with the one-character quote pattern. -/
def escapeWIQLChars : List Char → List Char
  | [] => []
  | c :: rest => (if c = squote then [squote, squote] else [c]) ++ escapeWIQLChars rest

/-- escapeWIQL: escapes single quotes for safe WIQL interpolation. -/
def escapeWIQL (s : String) : String := String.mk (escapeWIQLChars s.data)

/-- One step of the lone-quote scanner: the state is (ok so far, a quote is
pending). A quote toggles the pending flag; any other character fails when
a quote is pending. -/
def quoteStep : Bool × Bool → Char → Bool × Bool
  | (ok, pending), c =>
    if c = squote then (ok, !pending)
    else (ok && !pending, false)

/-- Verification predicate (not from the source): the character list holds
no lone, unescaped quote — every maximal run of quote characters has even
length, so a scan ends cleanly with no quote pending. -/
def noLoneQuote (cs : List Char) : Bool :=
  (cs.foldl quoteStep (true, false)).1 && !(cs.foldl quoteStep (true, false)).2

/-- The fixed SELECT clause of buildWIQL. -/
def wiqlSelect : String :=
  "SELECT [System.Id], [System.Title], [System.State], [System.WorkItemType], [System.AssignedTo] FROM WorkItems"

/-- The fixed ordering clause appended by buildWIQL. -/
def wiqlOrder : String := " ORDER BY [System.ChangedDate] DESC"

/-- The conditions slice built by buildWIQL: the team-project scope first,
then one equality per non-empty filter in the order type, state,
assigned-to; the reserved assignee value compiles to the at-me expression. -/
def wiqlConditions (project wiType state assignedTo : String) : List String :=
  [("[System.TeamProject] = ") ++ sq ++ escapeWIQL project ++ sq]
  ++ (if wiType = "" then [] else [("[System.WorkItemType] = ") ++ sq ++ escapeWIQL wiType ++ sq])
  ++ (if state = "" then [] else [("[System.State] = ") ++ sq ++ escapeWIQL state ++ sq])
  ++ (if assignedTo = "" then []
      else if assignedTo = ("@me") then [("[System.AssignedTo] = @me")]
      else [("[System.AssignedTo] = ") ++ sq ++ escapeWIQL assignedTo ++ sq])

/-- buildWIQL: SELECT, one WHERE whose conditions are joined with AND, and
the fixed ORDER BY clause. -/
def buildWIQL (project wiType state assignedTo : String) : String :=
  wiqlSelect ++ (" WHERE ")
  ++ String.intercalate (" AND ") (wiqlConditions project wiType state assignedTo)
  ++ wiqlOrder

/-! ## Pull requests, entity resolution and the vote workflow -/

/-- Repository info embedded in a pull request response. -/
structure PRRepository where
  id : String
  name : String
deriving DecidableEq

/-- A user identity. -/
structure IdentityRef where
  id : String
  displayName : String
  uniqueName : String
deriving DecidableEq

/-- A pull request reviewer with a vote. -/
structure Reviewer where
  id : String
  displayName : String
  uniqueName : String
  vote : Int
deriving DecidableEq

/-- A pull request record. -/
structure PullRequest where
  id : Int
  title : String
  description : String
  status : String
  createdBy : IdentityRef
  creationDate : String
  sourceBranch : String
  targetBranch : String
  mergeStatus : String
  isDraft : Bool
  repository : PRRepository
  reviewers : List Reviewer
  url : String
deriving DecidableEq

/-- A Git repository record. -/
structure Repository where
  id : String
  name : String
  url : String
deriving DecidableEq

/-- Response of the connectionData endpoint. -/
structure ConnectionData where
  authenticatedUser : IdentityRef
deriving DecidableEq

/-- Go strings.EqualFold modelled as character-wise ASCII case folding,
which is exact for the names the client compares. -/
def eqFold (a b : String) : Bool :=
  a.data.map Char.toLower == b.data.map Char.toLower

/-- resolveRepoID applied to the candidate list returned by the listing
call: first case-insensitive exact match wins; otherwise a not-found
error naming the attempted repository and the project. -/
def resolveRepoID (project repoName : String) (repos : List Repository) :
    Except String String :=
  match repos.find? (fun r => eqFold r.name repoName) with
  | some r => Except.ok r.id
  | none =>
      Except.error (("repository \"") ++ repoName ++ ("\" not found in project \"")
        ++ project ++ ("\""))

/-- shortBranch: Go strings.TrimPrefix of the heads prefix. -/
def shortBranch (ref : String) : String :=
  if ("refs/heads/").data.isPrefixOf ref.data then
    String.mk (ref.data.drop (("refs/heads/").data.length))
  else ref

/-- ensureRef: qualifies a branch name under refs/heads/ unless it is
already a fully qualified ref. -/
def ensureRef (branch : String) : String :=
  if ("refs/").data.isPrefixOf branch.data then branch
  else ("refs/heads/") ++ branch

/-- The reviewer-vote path built by VotePullRequest. -/
def votePath (repoID : String) (prID : Int) (reviewerID : String) : String :=
  ("git/repositories/") ++ repoID ++ ("/pullrequests/") ++ toString prID
  ++ ("/reviewers/") ++ reviewerID

/-- The project-scoped URL targeted by GetPullRequest. -/
def getPullRequestURL (c : Client) (project : String) (id : Int) : String :=
  projectURL c project (("git/pullrequests/") ++ toString id)

/-- Stubbed transport outcomes for the three calls of the vote workflow;
errors are represented by their rendered messages. -/
structure VoteStub where
  getPR : Except String PullRequest
  getConn : Except String ConnectionData
  voteResp : Except String Unit

/-- A network call of the vote workflow as observed at the transport
boundary. -/
inductive ApiCall where
  | getPullRequest : String → ApiCall
  | getConnectionData : ApiCall
  | votePullRequest : String → Int → ApiCall
deriving DecidableEq

/-- The success artifact emitted by votePR (id, vote and label). -/
structure VoteArtifact where
  pullRequestId : Int
  vote : Int
  status : String
deriving DecidableEq

/-- votePR from the point where the pull request id is parsed: fetch the
pull request, fetch the authenticated user via connectionData, then send
the vote keyed by the fetched repository id, the pull request id and the
fetched reviewer id. Each step aborts the workflow on error with a
wrapped message. Returns the calls made, in order, and the result. -/
def votePR (c : Client) (stub : VoteStub) (project : String) (id : Int)
    (vote : Int) (label : String) : List ApiCall × Except String VoteArtifact :=
  match stub.getPR with
  | Except.error e =>
      ([ApiCall.getPullRequest (getPullRequestURL c project id)],
       Except.error (("fetching pull request ") ++ toString id ++ (": ") ++ e))
  | Except.ok pr =>
    match stub.getConn with
    | Except.error e =>
        ([ApiCall.getPullRequest (getPullRequestURL c project id), ApiCall.getConnectionData],
         Except.error (("getting authenticated user: ") ++ e))
    | Except.ok conn =>
      let voteURL :=
        projectURL c project (votePath pr.repository.id id conn.authenticatedUser.id)
      match stub.voteResp with
      | Except.error e =>
          ([ApiCall.getPullRequest (getPullRequestURL c project id),
            ApiCall.getConnectionData, ApiCall.votePullRequest voteURL vote],
           Except.error (("voting on pull request ") ++ toString id ++ (": ") ++ e))
      | Except.ok _ =>
          ([ApiCall.getPullRequest (getPullRequestURL c project id),
            ApiCall.getConnectionData, ApiCall.votePullRequest voteURL vote],
           Except.ok ⟨id, vote, label⟩)

/-! ## Helper lemmas -/

/-- A string with a nonempty left part is nonempty. -/
theorem append_ne_empty_left (a b : String) (h : a ≠ "") : a ++ b ≠ "" := by
  intro hc
  apply h
  have h2 : (a ++ b).data = ([] : List Char) := by rw [hc]
  rw [String.data_append] at h2
  have h3 := (List.append_eq_nil.mp h2).1
  cases a
  simp_all

/-! ## Claim theorems -/

/-- Claim C1: decodeOrClose returns a typed error exactly when the status
code is at least 400; the error carries the status code and the raw body,
and its rendered message contains both the status code and the body text;
below 400 the raw body is handed back for decoding. -/
theorem decodeOrClose_spec (resp : Response) :
    ((∃ e, decodeOrClose resp = Except.error e) ↔ 400 ≤ resp.statusCode)
    ∧ (∀ e, decodeOrClose resp = Except.error e →
        e.statusCode = resp.statusCode ∧ e.body = resp.body
        ∧ (∃ a b, errorMessage e = a ++ toString resp.statusCode ++ b)
        ∧ (∃ d, errorMessage e = d ++ resp.body))
    ∧ (resp.statusCode < 400 → decodeOrClose resp = Except.ok resp.body) := by
  by_cases h : 400 ≤ resp.statusCode
  · refine ⟨⟨fun _ => h, fun _ => ⟨⟨resp.statusCode, resp.body⟩, by simp [decodeOrClose, h]⟩⟩,
      ?_, fun hlt => absurd h (by omega)⟩
    intro e he
    have he2 : e = ⟨resp.statusCode, resp.body⟩ := by
      simp [decodeOrClose, h] at he
      exact he.symm
    subst he2
    refine ⟨rfl, rfl, ⟨("Azure DevOps API error (HTTP "), ("): ") ++ resp.body, ?_⟩,
      ⟨("Azure DevOps API error (HTTP ") ++ toString resp.statusCode ++ ("): "), rfl⟩⟩
    simp [errorMessage, String.append_assoc]
  · have hok : decodeOrClose resp = Except.ok resp.body := by simp [decodeOrClose, h]
    refine ⟨⟨fun ⟨e, he⟩ => ?_, fun hge => absurd hge h⟩, fun e he => ?_, fun _ => hok⟩
    · rw [hok] at he; cases he
    · rw [hok] at he; cases he

/-- Claim C1 witness: the stubbed 404 response with body text given in the
specification scenario. -/
theorem decodeOrClose_spec_witness :
    (∃ e, decodeOrClose ⟨404, ("not found")⟩ = Except.error e)
    ∧ (∃ a b, errorMessage ⟨404, ("not found")⟩ = a ++ ("404") ++ b)
    ∧ (∃ d, errorMessage ⟨404, ("not found")⟩ = d ++ ("not found")) := by
  have h := decodeOrClose_spec ⟨404, ("not found")⟩
  refine ⟨h.1.mpr (by norm_num), ?_, ?_⟩
  · have h2 := h.2.1 ⟨404, ("not found")⟩ rfl
    obtain ⟨a, b, hab⟩ := h2.2.2.1
    exact ⟨a, b, hab⟩
  · exact (h.2.1 ⟨404, ("not found")⟩ rfl).2.2.2

/-- Claim C6: when every optional input of the work item update command is
empty, the command returns the nothing-to-update validation error and
performs no transport call. -/
theorem runWorkitemUpdate_noFields (c : Client) (stub : Except String WorkItem)
    (project : String) (id : Int) (title state assignedTo : String)
    (h1 : title = "") (h2 : state = "") (h3 : assignedTo = "") :
    runWorkitemUpdate c stub project id title state assignedTo
      = ([], Except.error ("no fields to update (use --title, --state, or --assigned-to)")) := by
  subst h1; subst h2; subst h3
  rfl

/-- Claim C6 witness: a concrete update invocation with all optional inputs
empty against a stub that would fail if it were ever reached. -/
theorem runWorkitemUpdate_noFields_witness :
    runWorkitemUpdate ⟨("https://dev.azure.com/org/_apis"), ("pat"), ("7.1")⟩
      (Except.error ("transport must not be called")) ("P") 7 ("") ("") ("")
      = ([], Except.error ("no fields to update (use --title, --state, or --assigned-to)")) :=
  runWorkitemUpdate_noFields _ _ _ _ _ _ _ rfl rfl rfl

/-- Claim C9: GetWorkItems with an empty identifier list returns an empty
slice and no error, performing no network call. -/
theorem getWorkItems_empty (stub : Except String WorkItemList) (project : String)
    (ids : List Int) (h : ids = []) :
    getWorkItems stub project ids = ([], Except.ok []) := by
  subst h
  rfl

/-- Claim C9 witness: an empty identifier list against a stub that would
fail if it were ever reached. -/
theorem getWorkItems_empty_witness :
    getWorkItems (Except.error ("transport must not be called")) ("P") []
      = ([], Except.ok []) :=
  getWorkItems_empty _ _ _ rfl

/-- Claim C10: ensureRef is idempotent, and for every branch name that does
not already start with the refs marker, shortBranch undoes ensureRef. -/
theorem ensureRef_spec (b : String) :
    ensureRef (ensureRef b) = ensureRef b
    ∧ (("refs/").data.isPrefixOf b.data = false → shortBranch (ensureRef b) = b) := by
  by_cases h : ("refs/").data.isPrefixOf b.data = true
  · refine ⟨by simp [ensureRef, h], fun hc => ?_⟩
    rw [h] at hc
    cases hc
  · have hpre : ("refs/").data.isPrefixOf (("refs/heads/") ++ b).data = true := by
      simp [String.data_append]
    have hpre2 : ("refs/heads/").data.isPrefixOf (("refs/heads/") ++ b).data = true := by
      simp [String.data_append]
    refine ⟨by simp [ensureRef, h, hpre], fun _ => ?_⟩
    simp [ensureRef, h, shortBranch, hpre2, String.data_append]

/-- Claim C10 witness: the round trip and idempotence at a concrete branch
name. -/
theorem ensureRef_spec_witness :
    ensureRef (ensureRef ("feature/fix-login")) = ensureRef ("feature/fix-login")
    ∧ shortBranch (ensureRef ("feature/fix-login")) = ("feature/fix-login") :=
  ⟨(ensureRef_spec ("feature/fix-login")).1,
   (ensureRef_spec ("feature/fix-login")).2 rfl⟩

/-- Claim C8: the resolver returns the id of the first candidate whose name
matches case-insensitively, and when no candidate matches it fails with an
error naming the attempted repository name and the project scope. -/
theorem resolveRepoID_spec :
    (∀ project repoName pre r post,
        (∀ r2 ∈ pre, eqFold r2.name repoName = false) →
        eqFold r.name repoName = true →
        resolveRepoID project repoName (pre ++ r :: post) = Except.ok r.id)
    ∧ (∀ project repoName repos,
        (∀ r ∈ repos, eqFold r.name repoName = false) →
        resolveRepoID project repoName repos
          = Except.error (("repository \"") ++ repoName ++ ("\" not found in project \"")
              ++ project ++ ("\""))) := by
  constructor
  · intro project repoName pre r post hpre hr
    induction pre with
    | nil =>
        simp [resolveRepoID, List.find?, hr]
    | cons a pre2 ih =>
        have ha := hpre a (by simp)
        have ih2 := ih (fun r2 hr2 => hpre r2 (by simp [hr2]))
        simp only [resolveRepoID] at ih2
        simp only [resolveRepoID, List.cons_append, List.find?, ha]
        exact ih2
  · intro project repoName repos hnone
    have hfind : repos.find? (fun r => eqFold r.name repoName) = none :=
      List.find?_eq_none.mpr (fun x hx => by simp [hnone x hx])
    simp [resolveRepoID, hfind]

/-- Claim C8 witness: the specification scenario candidates, resolving a
differently cased name to the first match and failing on an absent name. -/
theorem resolveRepoID_spec_witness :
    resolveRepoID ("P") ("ALPHA")
        [⟨("1"), ("Alpha"), ("")⟩, ⟨("2"), ("beta"), ("")⟩] = Except.ok ("1")
    ∧ resolveRepoID ("P") ("gamma") [⟨("1"), ("Alpha"), ("")⟩]
      = Except.error (("repository \"") ++ ("gamma") ++ ("\" not found in project \"")
          ++ ("P") ++ ("\"")) :=
  ⟨resolveRepoID_spec.1 ("P") ("ALPHA") [] ⟨("1"), ("Alpha"), ("")⟩
      [⟨("2"), ("beta"), ("")⟩] (by simp) (by decide),
   resolveRepoID_spec.2 ("P") ("gamma") [⟨("1"), ("Alpha"), ("")⟩] (by decide)⟩

/-- A quoted WIQL literal with a nonempty lead is a nonempty string. -/
theorem quoted_ne_empty (lead x : String) (h : lead ≠ "") :
    lead ++ sq ++ x ++ sq ≠ "" :=
  append_ne_empty_left _ _ (append_ne_empty_left _ _ (append_ne_empty_left _ _ h))

/-- The escaper preserves the clean scanner state: its output never leaves
a quote pending and never fails the scan. -/
theorem foldl_quoteStep_escape (cs : List Char) :
    ∀ ok : Bool, (escapeWIQLChars cs).foldl quoteStep (ok, false) = (ok, false) := by
  induction cs with
  | nil => intro ok; rfl
  | cons c rest ih =>
      intro ok
      by_cases h : c = squote
      · simp [escapeWIQLChars, h, quoteStep, ih]
      · simp [escapeWIQLChars, h, quoteStep, ih]

/-- The escaper leaves no lone quote: every quote in its output is
immediately paired with a second one. -/
theorem noLoneQuote_escapeWIQLChars (cs : List Char) :
    noLoneQuote (escapeWIQLChars cs) = true := by
  rw [noLoneQuote, foldl_quoteStep_escape cs true]
  rfl

/-- The escaper doubles quotes: the output carries exactly twice as many
quote characters as the input. -/
theorem count_escapeWIQLChars (cs : List Char) :
    (escapeWIQLChars cs).count squote = 2 * cs.count squote := by
  induction cs with
  | nil => rfl
  | cons c rest ih =>
      by_cases h : c = squote <;>
        simp [escapeWIQLChars, h, List.count_cons, ih] <;> omega

/-- Claim C3: buildWIQL emits exactly one WHERE whose conditions are joined
with AND, no condition being empty, the scope condition first and one
condition per non-empty optional filter, and ends with the fixed ORDER BY
clause. -/
theorem buildWIQL_spec (p t s a : String) :
    buildWIQL p t s a
      = wiqlSelect ++ (" WHERE ")
        ++ String.intercalate (" AND ") (wiqlConditions p t s a) ++ wiqlOrder
    ∧ (wiqlConditions p t s a).length
      = 1 + ((if t = "" then 0 else 1) + (if s = "" then 0 else 1) + (if a = "" then 0 else 1))
    ∧ (wiqlConditions p t s a).head?
      = some (("[System.TeamProject] = ") ++ sq ++ escapeWIQL p ++ sq)
    ∧ (∀ cond ∈ wiqlConditions p t s a, cond ≠ "")
    ∧ (∃ rest, buildWIQL p t s a = rest ++ wiqlOrder) := by
  refine ⟨rfl, ?_, ?_, ?_, ⟨_, rfl⟩⟩
  · by_cases ht : t = "" <;> by_cases hs : s = "" <;> by_cases ha : a = "" <;>
      simp [wiqlConditions, ht, hs, ha] <;> split <;> simp
  · simp [wiqlConditions]
  · simp only [wiqlConditions]
    rw [List.forall_mem_append, List.forall_mem_append, List.forall_mem_append]
    refine ⟨⟨⟨?_, ?_⟩, ?_⟩, ?_⟩
    · intro cond hc
      simp at hc
      subst hc
      exact quoted_ne_empty _ _ (by decide)
    · intro cond hc
      split at hc
      · exact absurd hc (List.not_mem_nil cond)
      · simp at hc
        subst hc
        exact quoted_ne_empty _ _ (by decide)
    · intro cond hc
      split at hc
      · exact absurd hc (List.not_mem_nil cond)
      · simp at hc
        subst hc
        exact quoted_ne_empty _ _ (by decide)
    · intro cond hc
      split at hc
      · exact absurd hc (List.not_mem_nil cond)
      · split at hc
        · simp at hc
          subst hc
          decide
        · simp at hc
          subst hc
          exact quoted_ne_empty _ _ (by decide)

/-- Claim C3 witness: a concrete filter combination with a type filter, no
state filter and the reserved assignee, giving three conditions. -/
theorem buildWIQL_spec_witness :
    (wiqlConditions ("MyProject") ("Bug") ("") ("@me")).length = 3
    ∧ buildWIQL ("MyProject") ("Bug") ("") ("@me")
      = wiqlSelect ++ (" WHERE ")
        ++ String.intercalate (" AND ") (wiqlConditions ("MyProject") ("Bug") ("") ("@me"))
        ++ wiqlOrder := by
  have h := buildWIQL_spec ("MyProject") ("Bug") ("") ("@me")
  exact ⟨by rw [h.2.1]; decide, h.1⟩

/-- Claim C4: every value interpolated as a WIQL literal has its quotes
doubled, so the escaped value contains no lone quote (and exactly twice
the original number of quote characters), and the reserved assignee value
compiles to the unescaped at-me expression rather than a string literal. -/
theorem wiqlEscaping_spec :
    (∀ s : String, noLoneQuote (escapeWIQL s).data = true)
    ∧ (∀ s : String, (escapeWIQL s).data.count squote = 2 * s.data.count squote)
    ∧ (∀ p t s, ("[System.AssignedTo] = @me") ∈ wiqlConditions p t s ("@me"))
    ∧ (∀ p t s a, a ≠ "" → a ≠ ("@me") →
        (("[System.AssignedTo] = ") ++ sq ++ escapeWIQL a ++ sq) ∈ wiqlConditions p t s a) := by
  refine ⟨fun s => noLoneQuote_escapeWIQLChars s.data,
    fun s => count_escapeWIQLChars s.data,
    fun p t s => ?_, fun p t s a ha h2 => ?_⟩
  · simp [wiqlConditions]
  · simp [wiqlConditions, ha, h2]

/-- Claim C4 witness: an assignee value carrying a quote, the reserved
assignee and a plain assignee at concrete inputs. -/
theorem wiqlEscaping_spec_witness :
    noLoneQuote (escapeWIQL (("O") ++ sq ++ ("Brien"))).data = true
    ∧ ("[System.AssignedTo] = @me") ∈ wiqlConditions ("P") ("") ("") ("@me")
    ∧ (("[System.AssignedTo] = ") ++ sq ++ escapeWIQL ("alice") ++ sq)
      ∈ wiqlConditions ("P") ("") ("") ("alice") :=
  ⟨wiqlEscaping_spec.1 _, wiqlEscaping_spec.2.2.1 ("P") ("") (""),
    wiqlEscaping_spec.2.2.2 ("P") ("") ("") ("alice") (by decide) (by decide)⟩

/-- Claim C7: the create patch document always carries the Title operation
plus one operation per non-empty optional input, the update patch document
one operation per non-empty optional input, and no operation is ever
emitted with an empty value from an absent input. -/
theorem patchFields_spec (title desc assignedTo areaPath iterationPath state : String) :
    (createFields title desc assignedTo areaPath iterationPath).length
      = 1 + ((if desc = "" then 0 else 1) + (if assignedTo = "" then 0 else 1)
          + (if areaPath = "" then 0 else 1) + (if iterationPath = "" then 0 else 1))
    ∧ (updateFields title state assignedTo).length
      = ((if title = "" then 0 else 1) + (if state = "" then 0 else 1)
          + (if assignedTo = "" then 0 else 1))
    ∧ (∀ f ∈ createFields title desc assignedTo areaPath iterationPath,
        f.path ≠ ("/fields/System.Title") → f.value ≠ "")
    ∧ (∀ f ∈ updateFields title state assignedTo, f.value ≠ "") := by
  refine ⟨?_, ?_, ?_, ?_⟩
  · by_cases h1 : desc = "" <;> by_cases h2 : assignedTo = "" <;>
      by_cases h3 : areaPath = "" <;> by_cases h4 : iterationPath = "" <;>
      simp [createFields, h1, h2, h3, h4]
  · by_cases h1 : title = "" <;> by_cases h2 : state = "" <;>
      by_cases h3 : assignedTo = "" <;> simp [updateFields, h1, h2, h3]
  · simp only [createFields]
    rw [List.forall_mem_append, List.forall_mem_append, List.forall_mem_append,
      List.forall_mem_append]
    refine ⟨⟨⟨⟨?_, ?_⟩, ?_⟩, ?_⟩, ?_⟩
    · intro f hf
      simp at hf
      subst hf
      exact fun hp => absurd rfl hp
    · intro f hf
      split at hf
      · exact absurd hf (List.not_mem_nil f)
      · rename_i hne
        simp at hf
        subst hf
        exact fun _ => hne
    · intro f hf
      split at hf
      · exact absurd hf (List.not_mem_nil f)
      · rename_i hne
        simp at hf
        subst hf
        exact fun _ => hne
    · intro f hf
      split at hf
      · exact absurd hf (List.not_mem_nil f)
      · rename_i hne
        simp at hf
        subst hf
        exact fun _ => hne
    · intro f hf
      split at hf
      · exact absurd hf (List.not_mem_nil f)
      · rename_i hne
        simp at hf
        subst hf
        exact fun _ => hne
  · simp only [updateFields]
    rw [List.forall_mem_append, List.forall_mem_append]
    refine ⟨⟨?_, ?_⟩, ?_⟩ <;>
      · intro f hf
        split at hf
        · exact absurd hf (List.not_mem_nil f)
        · rename_i hne
          simp at hf
          subst hf
          exact hne

/-- Claim C7 witness: the creation scenario of the specification (type Bug,
title only) yields the one-element patch document, and an update with a
title and a state yields two operations. -/
theorem patchFields_spec_witness :
    (createFields ("Fix crash") ("") ("") ("") ("")).length = 1
    ∧ (updateFields ("Fix crash") ("Active") ("")).length = 2 := by
  have h := patchFields_spec ("Fix crash") ("") ("") ("") ("") ("Active")
  exact ⟨by rw [h.1]; decide, by rw [h.2.1]; decide⟩

/-- Claim C5 counterexample: a caller-supplied target URL already carrying
an api-version parameter does not keep it — url.Values.Set replaces the
stored value, so the pair with the caller value is gone from the final
query. -/
theorem doRawParams_counterexample :
    (("api-version"), ("6.0")) ∈ ([((("api-version")), (("6.0")))] : List (String × String))
    ∧ (("api-version"), ("6.0")) ∉ doRawParams [((("api-version")), (("6.0")))] ("7.1") := by
  decide

/-- Claim C5 (amended): the final request query carries api-version set to
the client version, every caller-supplied parameter under any other key is
preserved alongside it (in particular the dollar-top parameter of the WIQL
target URL), while a caller-supplied api-version value is overwritten. -/
theorem doRawParams_spec (target : List (String × String)) (v : String) :
    (("api-version"), v) ∈ doRawParams target v
    ∧ (∀ kv ∈ target, kv.fst ≠ ("api-version") → kv ∈ doRawParams target v)
    ∧ (∀ top : Int, (("$top"), toString top) ∈ doRawParams (wiqlTarget top) v) := by
  refine ⟨by simp [doRawParams, setParam], ?_, ?_⟩
  · intro kv hkv hne
    simp only [doRawParams, setParam, List.mem_append]
    exact Or.inl (List.mem_filter.mpr ⟨hkv, by simp [hne]⟩)
  · intro top
    simp [doRawParams, setParam, wiqlTarget]

/-- Claim C5 witness: the api-version parameter and a caller-supplied
dollar-top parameter both appear in the final query at concrete inputs. -/
theorem doRawParams_spec_witness :
    (("api-version"), ("7.1")) ∈ doRawParams [((("$top")), (("20")))] ("7.1")
    ∧ (("$top"), ("20")) ∈ doRawParams [((("$top")), (("20")))] ("7.1") :=
  ⟨(doRawParams_spec [((("$top")), (("20")))] ("7.1")).1,
   (doRawParams_spec [((("$top")), (("20")))] ("7.1")).2.1 ((("$top")), (("20")))
     (by decide) (by decide)⟩

/-- Claim C2: the vote workflow makes exactly the three calls fetch pull
request, fetch connection data, send vote, in that order; the vote path
embeds the fetched repository id, the pull request id and the fetched
reviewer id; and a failure of any of the three calls aborts the workflow
with an error, no later call and no success artifact. -/
theorem votePR_spec (c : Client) (stub : VoteStub) (project : String) (id : Int)
    (vote : Int) (label : String) :
    (∀ pr conn, stub.getPR = Except.ok pr → stub.getConn = Except.ok conn →
      stub.voteResp = Except.ok () →
      votePR c stub project id vote label
        = ([ApiCall.getPullRequest (getPullRequestURL c project id),
            ApiCall.getConnectionData,
            ApiCall.votePullRequest
              (projectURL c project
                (votePath pr.repository.id id conn.authenticatedUser.id)) vote],
           Except.ok ⟨id, vote, label⟩)
      ∧ ∃ x y z, votePath pr.repository.id id conn.authenticatedUser.id
          = x ++ pr.repository.id ++ y ++ toString id ++ z ++ conn.authenticatedUser.id)
    ∧ (∀ e, stub.getPR = Except.error e →
        (votePR c stub project id vote label).1
          = [ApiCall.getPullRequest (getPullRequestURL c project id)]
        ∧ (votePR c stub project id vote label).2
          = Except.error (("fetching pull request ") ++ toString id ++ (": ") ++ e)
        ∧ ∀ art, (votePR c stub project id vote label).2 ≠ Except.ok art)
    ∧ (∀ pr e, stub.getPR = Except.ok pr → stub.getConn = Except.error e →
        (votePR c stub project id vote label).1
          = [ApiCall.getPullRequest (getPullRequestURL c project id),
             ApiCall.getConnectionData]
        ∧ (votePR c stub project id vote label).2
          = Except.error (("getting authenticated user: ") ++ e)
        ∧ ∀ art, (votePR c stub project id vote label).2 ≠ Except.ok art)
    ∧ (∀ pr conn e, stub.getPR = Except.ok pr → stub.getConn = Except.ok conn →
        stub.voteResp = Except.error e →
        (votePR c stub project id vote label).1
          = [ApiCall.getPullRequest (getPullRequestURL c project id),
             ApiCall.getConnectionData,
             ApiCall.votePullRequest
               (projectURL c project
                 (votePath pr.repository.id id conn.authenticatedUser.id)) vote]
        ∧ (votePR c stub project id vote label).2
          = Except.error (("voting on pull request ") ++ toString id ++ (": ") ++ e)
        ∧ ∀ art, (votePR c stub project id vote label).2 ≠ Except.ok art) := by
  refine ⟨?_, ?_, ?_, ?_⟩
  · intro pr conn h1 h2 h3
    exact ⟨by simp [votePR, h1, h2, h3],
      ("git/repositories/"), ("/pullrequests/"), ("/reviewers/"), rfl⟩
  · intro e h1
    exact ⟨by simp [votePR, h1], by simp [votePR, h1], fun art => by simp [votePR, h1]⟩
  · intro pr e h1 h2
    exact ⟨by simp [votePR, h1, h2], by simp [votePR, h1, h2],
      fun art => by simp [votePR, h1, h2]⟩
  · intro pr conn e h1 h2 h3
    exact ⟨by simp [votePR, h1, h2, h3], by simp [votePR, h1, h2, h3],
      fun art => by simp [votePR, h1, h2, h3]⟩

/-- Claim C2 witness: the specification scenario with a stub returning
repository id R1 and identity id U9 — three calls are made and the vote
path embeds R1, the pull request id and U9. -/
theorem votePR_spec_witness :
    (votePR ⟨("https://dev.azure.com/org/_apis"), ("pat"), ("7.1")⟩
        ⟨Except.ok ⟨42, ("T"), (""), ("active"), ⟨("u"), ("U"), ("u@x")⟩, (""),
            ("refs/heads/a"), ("refs/heads/b"), (""), false, ⟨("R1"), ("repo")⟩, [], ("")⟩,
          Except.ok ⟨⟨("U9"), ("Me"), ("me@x")⟩⟩, Except.ok ()⟩
        ("P") 42 10 ("Approved")).1.length = 3
    ∧ (∃ x y z, votePath ("R1") 42 ("U9")
        = x ++ ("R1") ++ y ++ ("42") ++ z ++ ("U9")) := by
  have h := (votePR_spec ⟨("https://dev.azure.com/org/_apis"), ("pat"), ("7.1")⟩
      ⟨Except.ok ⟨42, ("T"), (""), ("active"), ⟨("u"), ("U"), ("u@x")⟩, (""),
          ("refs/heads/a"), ("refs/heads/b"), (""), false, ⟨("R1"), ("repo")⟩, [], ("")⟩,
        Except.ok ⟨⟨("U9"), ("Me"), ("me@x")⟩⟩, Except.ok ()⟩
      ("P") 42 10 ("Approved")).1
      ⟨42, ("T"), (""), ("active"), ⟨("u"), ("U"), ("u@x")⟩, (""),
          ("refs/heads/a"), ("refs/heads/b"), (""), false, ⟨("R1"), ("repo")⟩, [], ("")⟩
      ⟨⟨("U9"), ("Me"), ("me@x")⟩⟩ rfl rfl rfl
  constructor
  · rw [h.1]
    rfl
  · obtain ⟨x, y, z, hx⟩ := h.2
    exact ⟨x, y, z, hx⟩

end Adocli
